import Mathlib

/-!
Shallow embedding of the recommendation scoring and fuzzy-resolution engine of
the Movies-Recommandation-API repository (src/services/recommendation_service.py).

Numeric values that the Python code holds as floats are modelled as rationals;
the one place where a float division can produce NaN (0/0 in numpy) is modelled
with `Option ℚ`, `none` standing for NaN.
-/

namespace MovieRec

/-- One row of the catalog dataframe (`self._df`): the columns the service
reads are `title`, `vote_average`, `vote_count`, `overview`, `genres`. -/
structure Row where
  title : String
  vote_average : ℚ
  vote_count : ℕ
  overview : String
  genres : String
deriving DecidableEq, Repr

instance : Inhabited Row := ⟨⟨"", 0, 0, "", ""⟩⟩

/-- Row constructor for rows whose free-text fields are empty. -/
def mkRow (t : String) (va : ℚ) (vc : ℕ) : Row := ⟨t, va, vc, "", ""⟩

/-!
The kernel cannot evaluate the field operations of ℚ (they are irreducible),
so the embedding computes with the following operations, built on `Rat.divInt`;
the bridge lemmas `qadd_eq`, `qsub_eq`, `qmul_eq`, `qdiv_eq_div`, `qfloor_eq`
and `qpow10_eq` in the theorem section prove each one equal to the
corresponding field operation, so every arithmetic fact below is stated and
read through ordinary `+`, `-`, `*`, `/`, `⌊·⌋`.
-/

/-- Addition on ℚ in a kernel-evaluable form (equals `x + y`). -/
def qadd (x y : ℚ) : ℚ := Rat.divInt (x.num * y.den + y.num * x.den) (x.den * y.den)

/-- Subtraction on ℚ in a kernel-evaluable form (equals `x - y`). -/
def qsub (x y : ℚ) : ℚ := qadd x (-y)

/-- Multiplication on ℚ in a kernel-evaluable form (equals `x * y`). -/
def qmul (x y : ℚ) : ℚ := Rat.divInt (x.num * y.num) (x.den * y.den)

/-- Division on ℚ in a kernel-evaluable form (equals `x / y`, with
`qdiv x 0 = 0` exactly as `x / 0 = 0` in Lean; the engine never divides by
zero except through `npDiv`, which models the numpy NaN instead). -/
def qdiv (x y : ℚ) : ℚ := Rat.divInt (x.num * y.den) (x.den * y.num)

/-- Floor on ℚ in a kernel-evaluable form (equals `⌊q⌋`). -/
def qfloor (q : ℚ) : ℤ := Int.fdiv q.num q.den

/-- `(10 ^ k : ℚ)` in a kernel-evaluable form. -/
def qpow10 (k : ℕ) : ℚ := ((10 ^ k : ℕ) : ℚ)

/-- Round-half-to-even on ℚ, the tie rule of Python `round`. -/
def rhe (q : ℚ) : ℤ :=
  if qsub q (qfloor q) < qdiv 1 2 then qfloor q
  else if qdiv 1 2 < qsub q (qfloor q) then qfloor q + 1
  else if qfloor q % 2 = 0 then qfloor q else qfloor q + 1

/-- Python `round(q, k)`: round to k decimal places, ties to even. -/
def pyround (k : ℕ) (q : ℚ) : ℚ := qdiv (rhe (qmul q (qpow10 k)) : ℚ) (qpow10 k)

/-- Length of a longest common subsequence, with an explicit structural fuel so
that the kernel can evaluate it; the fuel `|x| + |y|` always suffices. -/
def lcsAux : ℕ → List Char → List Char → ℕ
  | 0, _, _ => 0
  | _ + 1, [], _ => 0
  | _ + 1, _ :: _, [] => 0
  | n + 1, a :: as, b :: bs =>
    if a = b then lcsAux n as bs + 1
    else max (lcsAux n (a :: as) bs) (lcsAux n as (b :: bs))

def lcsLen (x y : List Char) : ℕ := lcsAux (x.length + y.length) x y

/-- rapidfuzz `fuzz.ratio`: normalized indel similarity in [0, 100],
`100 * (1 - dist/(|a|+|b|)) = 200 * lcs(a,b) / (|a|+|b|)`; two empty strings
score 100. -/
def fuzzScore (a b : String) : ℚ :=
  if a.data.length + b.data.length = 0 then 100
  else qdiv ((200 * lcsLen a.data b.data : ℕ) : ℚ) ((a.data.length + b.data.length : ℕ) : ℚ)

/-- One element of the tuple list returned by rapidfuzz `process.extract`:
`(choice, score, index)`. -/
structure FuzzMatch where
  choice : String
  score : ℚ
  index : ℕ
deriving DecidableEq, Repr

/-- Every title scored against the query, in catalog order. -/
def allMatches (query : String) (titles : List String) : List FuzzMatch :=
  titles.enum.map (fun p => ⟨p.2, fuzzScore query p.2, p.1⟩)

/-- Descending-score order on matches. -/
def matchGE (a b : FuzzMatch) : Prop := b.score ≤ a.score

instance : DecidableRel matchGE := fun a b => inferInstanceAs (Decidable (b.score ≤ a.score))

instance : IsTotal FuzzMatch matchGE := ⟨fun a b => le_total b.score a.score⟩

instance : IsTrans FuzzMatch matchGE := ⟨fun _ _ _ h1 h2 => le_trans h2 h1⟩

/-- rapidfuzz `process.extract(query, choices, scorer=fuzz.ratio, limit=limit)`
with no score cutoff: the `limit` best matches, score descending (stable). -/
def extract (query : String) (titles : List String) (limit : ℕ) : List FuzzMatch :=
  (List.insertionSort matchGE (allMatches query titles)).take limit

/-- Linear scan of rapidfuzz `process.extractOne`: keeps the current best and
replaces it only on a strictly greater score, so the first maximum wins. -/
def extractOneAux : Option FuzzMatch → List FuzzMatch → Option FuzzMatch
  | best, [] => best
  | none, m :: ms => extractOneAux (some m) ms
  | some b, m :: ms => extractOneAux (if b.score < m.score then some m else some b) ms

/-- rapidfuzz `process.extractOne(query, choices, scorer=fuzz.ratio)`:
the best match, or `none` only when the choice list is empty. -/
def extractOne (query : String) (titles : List String) : Option FuzzMatch :=
  extractOneAux none (allMatches query titles)

/-- The flat title list `self._movie_titles`, index-aligned with the catalog. -/
def dfTitles (df : List Row) : List String := df.map (·.title)

/-- One entry of the list returned by `search_movie`. -/
structure SearchResult where
  title : String
  match_score : ℚ
  rating : ℚ
  votes : ℕ
deriving DecidableEq, Repr

/-- `RecommendationService.search_movie`: fuzzy search over the title list,
formatting each match with `round(score, 1)` and `round(vote_average, 1)`. -/
def search_movie (df : List Row) (query : String) (limit : ℕ) : List SearchResult :=
  (extract query (dfTitles df) limit).map (fun m =>
    let movie := df.getD m.index default
    ⟨movie.title, pyround 1 m.score, pyround 1 movie.vote_average, movie.vote_count⟩)

/-- `RecommendationService.find_movie`: best fuzzy match, accepted iff its
score is ≥ the threshold (`match[1] >= threshold`). -/
def find_movie (df : List Row) (title : String) (threshold : ℚ) : Option String :=
  match extractOne title (dfTitles df) with
  | some m => if threshold ≤ m.score then some m.choice else none
  | none => none

/-- numpy float division: `x / 0` is not a real number (NaN for `0/0`, ±inf
otherwise), modelled as `none`; the engine only ever reaches the zero
denominator with a zero numerator (see `vmaxOf`), i.e. NaN. -/
def npDiv (x y : ℚ) : Option ℚ := if y = 0 then none else some (qdiv x y)

/-- `df_work['vote_count'].max()` (0 for an empty catalog). -/
def vmaxOf (df : List Row) : ℕ := df.foldr (fun r m => max r.vote_count m) 0

/-- The quality score of one row (line 134-137 of the service):
`(vote_average / 10) * 0.7 + (log1p(vote_count) / log1p(max_vote_count)) * 0.3`,
with `l1p` the (abstract, real-valued) `np.log1p` on naturals. -/
def qualityScore (l1p : ℕ → ℚ) (vmax : ℕ) (r : Row) : Option ℚ :=
  (npDiv (l1p r.vote_count) (l1p vmax)).map
    (fun pop => qadd (qmul (qdiv r.vote_average 10) (qdiv 7 10)) (qmul pop (qdiv 3 10)))

/-- A candidate row carrying its catalog index, its cosine similarity to the
anchor, and its (non-NaN) blended final score. -/
structure Scored where
  idx : ℕ
  row : Row
  similarity : ℚ
  final : ℚ
deriving DecidableEq, Repr

/-- Dot product of two embedding vectors (kernel-evaluable; `dotp_eq` below
equates it with `(List.zipWith (· * ·) a b).sum`). -/
def dotp (a b : List ℚ) : ℚ := (List.zipWith qmul a b).foldr qadd 0

/-- `s` is the cosine similarity of `a` and `b`, i.e. `⟪a,b⟫ / (‖a‖ * ‖b‖)`,
characterized without square roots: `s² * (⟪a,a⟫ * ⟪b,b⟫) = ⟪a,b⟫²` and `s`
has the sign of `⟪a,b⟫` (see `isCosSim_char` in the theorem section for this
statement through the field operations). -/
def IsCosSim (a b : List ℚ) (s : ℚ) : Prop :=
  qmul (qmul s s) (qmul (dotp a a) (dotp b b)) = qmul (dotp a b) (dotp a b) ∧
    (0 ≤ s ↔ 0 ≤ dotp a b)

instance (a b : List ℚ) (s : ℚ) : Decidable (IsCosSim a b s) :=
  inferInstanceAs (Decidable (_ ∧ _))

/-- Row `i` of `cosine_similarity(embeddings[anchor].reshape(1,-1), embeddings)[0]`,
with `cos` the cosine-similarity kernel sklearn computes. -/
def cosSims (cos : List ℚ → List ℚ → ℚ) (emb : List (List ℚ)) (anchor i : ℕ) : ℚ :=
  cos (emb.getD anchor []) (emb.getD i [])

/-- The filter of lines 143-147: keep rows with `vote_count >= min_votes`,
`vote_average >= min_rating`, and index different from the anchor. -/
def candidates (df : List Row) (minV : ℕ) (minR : ℚ) (anchor : ℕ) : List (ℕ × Row) :=
  df.enum.filter (fun p => decide (minV ≤ p.2.vote_count ∧ minR ≤ p.2.vote_average ∧ p.1 ≠ anchor))

/-- Score one candidate: `final_score = similarity * 0.6 + quality_score * 0.4`
(line 140); `none` when the quality score is NaN. -/
def scoreCand (sims : ℕ → ℚ) (l1p : ℕ → ℚ) (vmax : ℕ) (p : ℕ × Row) : Option Scored :=
  (qualityScore l1p vmax p.2).map
    (fun q => ⟨p.1, p.2, sims p.1, qadd (qmul (sims p.1) (qdiv 6 10)) (qmul q (qdiv 4 10))⟩)

/-- The filtered candidates with their scores; rows whose score is NaN are
dropped, as `DataFrame.nlargest` does. -/
def scoredCands (df : List Row) (sims l1p : ℕ → ℚ) (minV : ℕ) (minR : ℚ) (anchor : ℕ) :
    List Scored :=
  (candidates df minV minR anchor).filterMap (scoreCand sims l1p (vmaxOf df))

/-- Descending order on final scores. -/
def scoredGE (a b : Scored) : Prop := b.final ≤ a.final

instance : DecidableRel scoredGE := fun a b => inferInstanceAs (Decidable (b.final ≤ a.final))

instance : IsTotal Scored scoredGE := ⟨fun a b => le_total b.final a.final⟩

instance : IsTrans Scored scoredGE := ⟨fun _ _ _ h1 h2 => le_trans h2 h1⟩

/-- `filtered.nlargest(top_n, 'final_score')`: the `top_n` rows with the
largest final score, descending. -/
def topScored (df : List Row) (sims l1p : ℕ → ℚ) (topn minV : ℕ) (minR : ℚ) (anchor : ℕ) :
    List Scored :=
  (List.insertionSort scoredGE (scoredCands df sims l1p minV minR anchor)).take topn

/-- One entry of the formatted recommendation list (lines 153-161). -/
structure RecEntry where
  title : String
  rating : ℚ
  votes : ℕ
  similarity : ℚ
  score : ℚ
deriving DecidableEq, Repr

def formatEntry (s : Scored) : RecEntry :=
  ⟨s.row.title, pyround 1 s.row.vote_average, s.row.vote_count,
    pyround 3 s.similarity, pyround 3 s.final⟩

/-- The two shapes `get_recommendations` can return: the error dict with
suggestions, or the success dict (its `total_recommendations` field is the
length of the list and is not modelled separately). -/
inductive RecResult where
  | notFound (error : String) (suggestions : List SearchResult)
  | ok (input_movie : String) (recommendations : List RecEntry)
deriving DecidableEq, Repr

/-- `self._df[self._df['title'] == matched_title].index[0]`: the least catalog
index bearing the matched title. -/
def anchorIdx (df : List Row) (t : String) : ℕ := df.findIdx (fun r => r.title == t)

/-- `RecommendationService.get_recommendations`. `cos` and `emb` stand for
sklearn cosine similarity and the embedding table, `l1p` for `np.log1p`. -/
def get_recommendations (df : List Row) (cos : List ℚ → List ℚ → ℚ) (emb : List (List ℚ))
    (l1p : ℕ → ℚ) (movie_name : String) (top_n min_votes : ℕ) (min_rating : ℚ) : RecResult :=
  match find_movie df movie_name 60 with
  | none => .notFound ("Movie " ++ movie_name ++ " not found") (search_movie df movie_name 3)
  | some t =>
      let a := anchorIdx df t
      .ok t ((topScored df (cosSims cos emb a) l1p top_n min_votes min_rating a).map formatEntry)

/-- The recommendation list of a result (empty in the error case). -/
def recList : RecResult → List RecEntry
  | .notFound _ _ => []
  | .ok _ recs => recs

/-- Whether the result is the success shape. -/
def isOkR : RecResult → Bool
  | .notFound _ _ => false
  | .ok _ _ => true

/-- The dict returned by `get_movie_details`. -/
structure MovieDetails where
  title : String
  rating : ℚ
  votes : ℕ
  overview : String
  genres : String
deriving DecidableEq, Repr

/-- `RecommendationService.get_movie_details`: resolve, then format the first
row bearing the resolved title (`.iloc[0]`). -/
def get_movie_details (df : List Row) (title : String) : Option MovieDetails :=
  (find_movie df title 60).map (fun t =>
    let movie := df.getD (anchorIdx df t) default
    ⟨movie.title, pyround 1 movie.vote_average, movie.vote_count, movie.overview, movie.genres⟩)

/-- The pickled dict read by `_load_model`; each key may be absent. -/
structure ModelDict where
  dataframe : Option (List Row)
  embeddings : Option (List (List ℚ))
  movie_titles : Option (List String)
deriving DecidableEq, Repr

/-- What the filesystem and unpickling can yield for the model path. -/
inductive LoadInput where
  | missing
  | badPickle
  | ok (m : ModelDict)
deriving DecidableEq, Repr

/-- The two ways `_load_model` re-raises: `FileNotFoundError` (the spec's
`ArtifactNotFound`) and every other exception (the spec's `ArtifactCorrupt`). -/
inductive LoadError where
  | fileNotFound
  | otherError
deriving DecidableEq, Repr

/-- The loaded state: `self._df`, `self._embeddings`, `self._movie_titles`. -/
structure Store where
  df : List Row
  embeddings : List (List ℚ)
  movie_titles : List String
deriving DecidableEq, Repr

/-- `RecommendationService._load_model`: open + unpickle, then subscript the
three keys; a missing key raises `KeyError`, caught and re-raised by the
generic handler. No further validation is performed. -/
def loadModel : LoadInput → Except LoadError Store
  | .missing => .error .fileNotFound
  | .badPickle => .error .otherError
  | .ok m =>
    match m.dataframe, m.embeddings, m.movie_titles with
    | some d, some e, some t => .ok ⟨d, e, t⟩
    | _, _, _ => .error .otherError

/-- The length invariant the spec requires of a loaded store. -/
def storeLensOk (s : Store) : Prop :=
  s.df.length = s.embeddings.length ∧ s.df.length = s.movie_titles.length

instance (s : Store) : Decidable (storeLensOk s) := inferInstanceAs (Decidable (_ ∧ _))

/-! Concrete inputs used by the witness and counterexample theorems. -/

/-- A linear stand-in instantiation of the abstract `log1p` parameter; it has
the two properties the engine relies on (`l1pLin 0 = 0`, positive on positive
counts). -/
def l1pLin : ℕ → ℚ := fun n => (n : ℚ)

/-- A catalog with two rows whose titles share no characters. -/
def dfPair : List Row := [mkRow "ab" 7 100, mkRow "cd" (qdiv 604 100) 100]

def embPair : List (List ℚ) := [[1, 0], [0, 1]]

/-- A catalog with a duplicated title, anchoring behaviour under duplicates. -/
def dfDup : List Row := [mkRow "ab" 7 100, mkRow "ab" 8 150, mkRow "cd" 9 200]

/-- Unit-norm embeddings for `dfDup`, so the cosine similarities are exactly
the dot products. -/
def embDup : List (List ℚ) := [[1, 0], [qdiv 3 5, qdiv 4 5], [0, 1]]

/-- A catalog in which every row has zero votes (degenerate catalog). -/
def dfZero : List Row := [mkRow "ab" 7 0, mkRow "cd" 8 0]

/-- A one-title catalog whose title scores exactly 60 against query "abc":
`lcs("abc","abcdefg") = 3`, lengths 3 + 7, so `200 * 3 / 10 = 60`. -/
def dfSixty : List Row := [mkRow "abcdefg" 7 100]

/-- A model dict with all three keys present but collections of pairwise
different lengths. -/
def badDict : ModelDict := ⟨some [mkRow "ab" 7 10], some [[1], [2]], some []⟩

/-- A model dict whose `dataframe` key is absent. -/
def noKeyDict : ModelDict := ⟨none, some [[1]], some ["ab"]⟩

/-- The recommendation list the engine computes on `dfPair` for anchor "ab"
with `min_votes = 0`, `min_rating = 6.04`. -/
def recsPair : List RecEntry := [⟨"cd", 6, 100, 0, qdiv 289 1000⟩]

/-- The recommendation list the engine computes on `dfDup` for anchor "ab"
with `min_votes = 0`, `min_rating = 0`. -/
def recsDup : List RecEntry :=
  [⟨"ab", 8, 150, qdiv 3 5, qdiv 337 500⟩, ⟨"cd", 9, 200, 0, qdiv 93 250⟩]

/-! ## Bridge lemmas: the kernel-evaluable arithmetic is the field arithmetic -/

theorem qadd_eq (x y : ℚ) : qadd x y = x + y := by
  have hx : ((x.den : ℚ)) ≠ 0 := by
    exact_mod_cast x.den_nz
  have hy : ((y.den : ℚ)) ≠ 0 := by
    exact_mod_cast y.den_nz
  conv_rhs => rw [← Rat.num_div_den x, ← Rat.num_div_den y]
  rw [qadd, Rat.divInt_eq_div, div_add_div _ _ hx hy]
  push_cast
  ring_nf

theorem qsub_eq (x y : ℚ) : qsub x y = x - y := by
  rw [qsub, qadd_eq, ← sub_eq_add_neg]

theorem qmul_eq (x y : ℚ) : qmul x y = x * y := by
  conv_rhs => rw [← Rat.num_div_den x, ← Rat.num_div_den y]
  rw [qmul, Rat.divInt_eq_div, div_mul_div_comm]
  push_cast
  ring_nf

theorem qdiv_eq_div (x y : ℚ) : qdiv x y = x / y := by
  rcases eq_or_ne y 0 with rfl | hy
  · simp [qdiv]
  · have hxd : ((x.den : ℚ)) ≠ 0 := by
      exact_mod_cast x.den_nz
    have hyn : ((y.num : ℚ)) ≠ 0 := by
      exact_mod_cast Rat.num_ne_zero.mpr hy
    have hxnum : (x.num : ℚ) = x * x.den := (div_eq_iff hxd).mp (Rat.num_div_den x)
    have hynum : (y.num : ℚ) = y * y.den := by
      have hyd : ((y.den : ℚ)) ≠ 0 := by
        exact_mod_cast y.den_nz
      exact (div_eq_iff hyd).mp (Rat.num_div_den y)
    rw [qdiv, Rat.divInt_eq_div]
    push_cast
    rw [div_eq_div_iff (mul_ne_zero hxd hyn) hy, hxnum, hynum]
    ring

theorem qfloor_eq (q : ℚ) : qfloor q = ⌊q⌋ := by
  rw [qfloor, Rat.floor_def]
  exact Int.fdiv_eq_ediv _ (Int.natCast_nonneg _)

theorem qpow10_eq (k : ℕ) : qpow10 k = (10 : ℚ) ^ k := by
  rw [qpow10]
  push_cast
  ring

theorem dotp_eq (a b : List ℚ) : dotp a b = (List.zipWith (· * ·) a b).sum := by
  induction a generalizing b with
  | nil => cases b <;> rfl
  | cons x xs ih =>
    cases b with
    | nil => rfl
    | cons y ys =>
      show qadd (qmul x y) (dotp xs ys) = _
      rw [List.zipWith_cons_cons, List.sum_cons, qadd_eq, qmul_eq, ih]

theorem isCosSim_char (a b : List ℚ) (s : ℚ) :
    IsCosSim a b s ↔
      s ^ 2 * (dotp a a * dotp b b) = dotp a b ^ 2 ∧ (0 ≤ s ↔ 0 ≤ dotp a b) := by
  rw [IsCosSim, qmul_eq, qmul_eq, qmul_eq, qmul_eq, pow_two, pow_two]

/-! ## Helper lemmas about the resolver and the scoring pipeline -/

theorem lcsAux_nil_left (n : ℕ) (l : List Char) : lcsAux n [] l = 0 := by
  cases n <;> cases l <;> rfl

theorem lcsLen_nil_left (l : List Char) : lcsLen [] l = 0 := lcsAux_nil_left _ _

/-- The fuzzy score of the empty query against any non-empty title is 0. -/
theorem fuzzScore_empty_query (t : String) (ht : t ≠ "") : fuzzScore "" t = 0 := by
  have hd : t.data ≠ [] := fun h => ht (String.ext h)
  have hlen : t.data.length ≠ 0 := fun h => hd (List.eq_nil_of_length_eq_zero h)
  rw [fuzzScore]
  rw [if_neg (by simpa using hlen)]
  rw [show ("".data.length : ℕ) = 0 from rfl, lcsLen_nil_left]
  rw [qdiv_eq_div]
  norm_num

theorem pyround_zero (k : ℕ) : pyround k 0 = 0 := by
  have h1 : qmul 0 (qpow10 k) = 0 := by
    rw [qmul_eq]
    ring
  have h2 : rhe 0 = 0 := by
    have hf : qfloor 0 = 0 := by
      rw [qfloor_eq]
      norm_num
    rw [rhe, hf]
    norm_num [qsub_eq, qdiv_eq_div]
  rw [pyround, h1, h2]
  rw [qdiv_eq_div]
  norm_num

/-- The scan of `extractOne` only ever returns the accumulator or a list
element. -/
theorem extractOneAux_eq_some (ms : List FuzzMatch) :
    ∀ (acc : Option FuzzMatch) (m : FuzzMatch),
      extractOneAux acc ms = some m → m ∈ ms ∨ acc = some m := by
  induction ms with
  | nil =>
    intro acc m h
    cases acc with
    | none => exact Or.inr h
    | some b => exact Or.inr h
  | cons x xs ih =>
    intro acc m h
    cases acc with
    | none =>
      rcases ih (some x) m h with hmem | hacc
      · exact Or.inl (List.mem_cons_of_mem _ hmem)
      · have hx := Option.some.inj hacc
        subst hx
        exact Or.inl (List.mem_cons_self _ _)
    | some b =>
      rcases ih _ m h with hmem | hacc
      · exact Or.inl (List.mem_cons_of_mem _ hmem)
      · by_cases hlt : b.score < x.score
        · rw [if_pos hlt] at hacc
          have hx := Option.some.inj hacc
          subst hx
          exact Or.inl (List.mem_cons_self _ _)
        · rw [if_neg hlt] at hacc
          exact Or.inr hacc

/-- A successful `extractOne` returns one of the scored matches. -/
theorem extractOne_mem {q : String} {ts : List String} {m : FuzzMatch}
    (h : extractOne q ts = some m) : m ∈ allMatches q ts := by
  rcases extractOneAux_eq_some _ _ _ h with hmem | hacc
  · exact hmem
  · exact absurd hacc (by simp)

/-- Shape of an element of `allMatches`. -/
theorem mem_allMatches {q : String} {ts : List String} {m : FuzzMatch}
    (h : m ∈ allMatches q ts) :
    ts[m.index]? = some m.choice ∧ m.score = fuzzScore q m.choice := by
  rw [allMatches, List.mem_map] at h
  obtain ⟨p, hp, hm⟩ := h
  have hget : ts[p.1]? = some p.2 := List.mem_enum_iff_getElem?.mp hp
  cases hm
  exact ⟨hget, rfl⟩

theorem mem_allMatches_choice_mem {q : String} {ts : List String} {m : FuzzMatch}
    (h : m ∈ allMatches q ts) : m.choice ∈ ts := by
  obtain ⟨hget, -⟩ := mem_allMatches h
  obtain ⟨hlt, hEq⟩ := List.getElem?_eq_some.mp hget
  exact hEq ▸ List.getElem_mem hlt

/-- A resolved title is one of the catalog titles. -/
theorem find_movie_some_mem {df : List Row} {q t : String} {th : ℚ}
    (h : find_movie df q th = some t) : t ∈ dfTitles df := by
  rw [find_movie] at h
  cases he : extractOne q (dfTitles df) with
  | none =>
    rw [he] at h
    exact absurd h (by simp)
  | some m =>
    rw [he] at h
    by_cases hth : th ≤ m.score
    · have h' : m.choice = t := by
        simpa [hth] using h
      exact h' ▸ mem_allMatches_choice_mem (extractOne_mem he)
    · simp [hth] at h

/-- Inversion of the success branch of `get_recommendations`. -/
theorem get_rec_ok_inv {df : List Row} {cos : List ℚ → List ℚ → ℚ} {emb : List (List ℚ)}
    {l1p : ℕ → ℚ} {name : String} {tn mv : ℕ} {mr : ℚ} {t : String} {recs : List RecEntry}
    (h : get_recommendations df cos emb l1p name tn mv mr = RecResult.ok t recs) :
    find_movie df name 60 = some t ∧
      recs = (topScored df (cosSims cos emb (anchorIdx df t)) l1p tn mv mr
        (anchorIdx df t)).map formatEntry := by
  rw [get_recommendations] at h
  cases hf : find_movie df name 60 with
  | none =>
    rw [hf] at h
    exact absurd h (by simp)
  | some t0 =>
    rw [hf] at h
    have h' : t0 = t ∧
        (topScored df (cosSims cos emb (anchorIdx df t0)) l1p tn mv mr
          (anchorIdx df t0)).map formatEntry = recs := by
      simpa [RecResult.ok.injEq] using h
    obtain ⟨ht, hrecs⟩ := h'
    subst ht
    exact ⟨rfl, hrecs.symm⟩

/-- Membership in the selected top rows implies membership in the scored
candidate pool. -/
theorem mem_topScored {df : List Row} {sims l1p : ℕ → ℚ} {tn mv : ℕ} {mr : ℚ} {a : ℕ}
    {s : Scored} (h : s ∈ topScored df sims l1p tn mv mr a) :
    s ∈ scoredCands df sims l1p mv mr a := by
  rw [topScored] at h
  exact (List.mem_insertionSort scoredGE).mp (List.mem_of_mem_take h)

/-- Decomposition of a scored candidate: it comes from a filtered catalog row
and its fields are the engine's formulas. -/
theorem mem_scoredCands {df : List Row} {sims l1p : ℕ → ℚ} {mv : ℕ} {mr : ℚ} {a : ℕ}
    {s : Scored} (h : s ∈ scoredCands df sims l1p mv mr a) :
    df[s.idx]? = some s.row ∧ mv ≤ s.row.vote_count ∧ mr ≤ s.row.vote_average ∧
      s.idx ≠ a ∧ s.similarity = sims s.idx ∧
      ∃ q, qualityScore l1p (vmaxOf df) s.row = some q ∧
        s.final = qadd (qmul (sims s.idx) (qdiv 6 10)) (qmul q (qdiv 4 10)) := by
  rw [scoredCands, List.mem_filterMap] at h
  obtain ⟨p, hp, hs⟩ := h
  rw [scoreCand, Option.map_eq_some'] at hs
  obtain ⟨q, hq, hf⟩ := hs
  rw [candidates, List.mem_filter] at hp
  obtain ⟨henum, hcond⟩ := hp
  rw [decide_eq_true_iff] at hcond
  obtain ⟨h1, h2, h3⟩ := hcond
  have hget : df[p.1]? = some p.2 := List.mem_enum_iff_getElem?.mp henum
  cases hf
  exact ⟨hget, h1, h2, h3, rfl, q, hq, rfl⟩

/-- In a catalog where every row has zero votes, the maximum vote count is 0. -/
theorem vmaxOf_eq_zero {df : List Row} (h : ∀ r ∈ df, r.vote_count = 0) :
    vmaxOf df = 0 := by
  induction df with
  | nil => rfl
  | cons x xs ih =>
    show max x.vote_count (vmaxOf xs) = 0
    rw [h x (List.mem_cons_self _ _), ih (fun r hr => h r (List.mem_cons_of_mem _ hr))]
    simp

/-- The selection of `nlargest`: the selected rows together with the rows left
behind are a permutation of the candidate pool, the selected prefix has length
`min topn pool`, and the whole arrangement is sorted by descending final
score (so every selected score dominates every rejected one). -/
theorem topScored_spec (df : List Row) (sims l1p : ℕ → ℚ) (tn mv : ℕ) (mr : ℚ) (a : ℕ) :
    ∃ rest : List Scored,
      (topScored df sims l1p tn mv mr a ++ rest).Perm (scoredCands df sims l1p mv mr a) ∧
      (topScored df sims l1p tn mv mr a).length =
        min tn (topScored df sims l1p tn mv mr a ++ rest).length ∧
      List.Pairwise (fun x y => y.final ≤ x.final)
        (topScored df sims l1p tn mv mr a ++ rest) := by
  refine ⟨(List.insertionSort scoredGE (scoredCands df sims l1p mv mr a)).drop tn, ?_, ?_, ?_⟩
  · rw [topScored, List.take_append_drop]
    exact List.perm_insertionSort _ _
  · rw [topScored, List.take_append_drop, List.length_take, List.length_insertionSort]
  · rw [topScored, List.take_append_drop]
    exact List.sorted_insertionSort scoredGE _

/-! ## Claim theorems -/

/-- C9: for every input, `get_recommendations` returns at most `top_n`
recommendations and `search_movie` returns at most `limit` results. -/
theorem C9_bounded_size (df : List Row) (cos : List ℚ → List ℚ → ℚ) (emb : List (List ℚ))
    (l1p : ℕ → ℚ) (name q : String) (tn mv limit : ℕ) (mr : ℚ) :
    (recList (get_recommendations df cos emb l1p name tn mv mr)).length ≤ tn ∧
    (search_movie df q limit).length ≤ limit := by
  constructor
  · cases hr : get_recommendations df cos emb l1p name tn mv mr with
    | notFound e s => exact Nat.zero_le _
    | ok t recs =>
      obtain ⟨-, hrecs⟩ := get_rec_ok_inv hr
      show recs.length ≤ tn
      rw [hrecs, List.length_map, topScored, List.length_take]
      exact min_le_left _ _
  · rw [search_movie, List.length_map, extract, List.length_take]
    exact min_le_left _ _

/-- C8: when title resolution fails, `get_recommendations` returns the error
shape whose suggestions are exactly the top-3 fuzzy search results (hence at
most 3 of them), while `get_movie_details` returns `none` with no
suggestions. -/
theorem C8_notfound_suggestions (df : List Row) (cos : List ℚ → List ℚ → ℚ)
    (emb : List (List ℚ)) (l1p : ℕ → ℚ) (name : String) (tn mv : ℕ) (mr : ℚ)
    (h : find_movie df name 60 = none) :
    get_recommendations df cos emb l1p name tn mv mr =
      RecResult.notFound ("Movie " ++ name ++ " not found") (search_movie df name 3) ∧
    (search_movie df name 3).length ≤ 3 ∧
    get_movie_details df name = none := by
  refine ⟨?_, ?_, ?_⟩
  · rw [get_recommendations, h]
  · rw [search_movie, List.length_map, extract, List.length_take]
    exact min_le_left _ _
  · rw [get_movie_details, h]
    rfl

/-- C7: `find_movie` with threshold 60 accepts a best fuzzy match scoring
exactly 60 and rejects one scoring strictly below 60, in which case
`get_recommendations` falls through to the suggestion path. -/
theorem C7_threshold_boundary (df : List Row) (q : String) (m : FuzzMatch)
    (hm : extractOne q (dfTitles df) = some m) :
    (m.score = 60 → find_movie df q 60 = some m.choice) ∧
    (m.score < 60 →
      find_movie df q 60 = none ∧
      ∀ (cos : List ℚ → List ℚ → ℚ) (emb : List (List ℚ)) (l1p : ℕ → ℚ)
        (tn mv : ℕ) (mr : ℚ),
        get_recommendations df cos emb l1p q tn mv mr =
          RecResult.notFound ("Movie " ++ q ++ " not found") (search_movie df q 3)) := by
  constructor
  · intro h60
    rw [find_movie, hm]
    show (if 60 ≤ m.score then some m.choice else none) = some m.choice
    rw [if_pos (le_of_eq h60.symm)]
  · intro hlt
    have hn : find_movie df q 60 = none := by
      rw [find_movie, hm]
      show (if 60 ≤ m.score then some m.choice else none) = none
      rw [if_neg (not_le.mpr hlt)]
    exact ⟨hn, fun cos emb l1p tn mv mr => by rw [get_recommendations, hn]⟩

/-- C6 counterexample: with all three keys present, `_load_model` performs no
length check, so it returns a store whose three collections have pairwise
disagreeing lengths (1, 2 and 0 here). -/
theorem C6_counterexample_no_length_check :
    loadModel (.ok badDict) = .ok ⟨[mkRow "ab" 7 10], [[1], [2]], []⟩ ∧
    ¬ storeLensOk ⟨[mkRow "ab" 7 10], [[1], [2]], []⟩ := by
  exact ⟨rfl, by decide⟩

/-- C6 (amended): `_load_model` fails with `FileNotFoundError` when the path
does not resolve and re-raises any deserialization or missing-key error, but
it never checks the three collections' lengths: with all keys present it
returns the store unconditionally. -/
theorem C6_amended_load (m : ModelDict)
    (hmiss : m.dataframe = none ∨ m.embeddings = none ∨ m.movie_titles = none) :
    loadModel .missing = .error .fileNotFound ∧
    loadModel .badPickle = .error .otherError ∧
    loadModel (.ok m) = .error .otherError ∧
    ∀ (d : List Row) (e : List (List ℚ)) (t : List String),
      loadModel (.ok ⟨some d, some e, some t⟩) = .ok ⟨d, e, t⟩ := by
  refine ⟨rfl, rfl, ?_, fun d e t => rfl⟩
  obtain ⟨md, me, mt⟩ := m
  rcases hmiss with h | h | h
  · dsimp at h
    subst h
    cases me <;> cases mt <;> rfl
  · dsimp at h
    subst h
    cases md <;> cases mt <;> rfl
  · dsimp at h
    subst h
    cases md <;> cases me <;> rfl

/-- C6 (amended) witness at a dict whose `dataframe` key is absent. -/
theorem C6_amended_load_witness :
    loadModel .missing = .error .fileNotFound ∧
    loadModel .badPickle = .error .otherError ∧
    loadModel (.ok noKeyDict) = .error .otherError ∧
    ∀ (d : List Row) (e : List (List ℚ)) (t : List String),
      loadModel (.ok ⟨some d, some e, some t⟩) = .ok ⟨d, e, t⟩ :=
  C6_amended_load noKeyDict (Or.inl rfl)

/-- C5: in a degenerate catalog where every row has zero votes, the quality
formula divides `log1p(0)` by `log1p(0)`, i.e. 0/0: numpy produces NaN for
every row (modelled as `none`) instead of the popularity term 0 that the
specification requires. -/
theorem C5_degenerate_catalog_nan (df : List Row) (l1p : ℕ → ℚ) (hl0 : l1p 0 = 0)
    (hall : ∀ r ∈ df, r.vote_count = 0) :
    vmaxOf df = 0 ∧
    ∀ r ∈ df, qualityScore l1p (vmaxOf df) r = none := by
  have hv := vmaxOf_eq_zero hall
  refine ⟨hv, fun r hr => ?_⟩
  rw [qualityScore, hv, npDiv, if_pos hl0]
  rfl

/-- C5 witness: the degenerate two-row catalog evaluates to NaN quality. -/
theorem C5_degenerate_catalog_nan_witness :
    vmaxOf dfZero = 0 ∧
    ∀ r ∈ dfZero, qualityScore l1pLin (vmaxOf dfZero) r = none :=
  C5_degenerate_catalog_nan dfZero l1pLin (by decide) (by decide)

/-- C4 counterexample: on a concrete catalog the empty query does not yield an
empty result set from `search_movie`; every title comes back (with score 0). -/
theorem C4_counterexample_nonempty_result :
    search_movie dfPair "" 5 ≠ [] ∧ (search_movie dfPair "" 5).length = 2 := by
  decide

/-- C4 (amended): the resolver does not special-case empty queries. On a
catalog of non-empty titles the empty query scores 0 against every title, so
`find_movie` (threshold 60) returns `none`, but `search_movie` returns
`min limit catalogSize` results, each with match score 0, not an empty set. -/
theorem C4_amended_empty_query (df : List Row) (limit : ℕ)
    (hne : ∀ r ∈ df, r.title ≠ "") :
    find_movie df "" 60 = none ∧
    (search_movie df "" limit).length = min limit df.length ∧
    ∀ e ∈ search_movie df "" limit, e.match_score = 0 := by
  have hscore : ∀ m ∈ allMatches "" (dfTitles df), m.score = 0 := by
    intro m hm
    obtain ⟨-, hs⟩ := mem_allMatches hm
    have hmem := mem_allMatches_choice_mem hm
    rw [dfTitles, List.mem_map] at hmem
    obtain ⟨r, hr, hrt⟩ := hmem
    rw [hs, ← hrt, fuzzScore_empty_query _ (hrt ▸ hne r hr)]
  have hfind : find_movie df "" 60 = none := by
    rw [find_movie]
    cases he : extractOne "" (dfTitles df) with
    | none => rfl
    | some m =>
      have h0 : m.score = 0 := hscore m (extractOne_mem he)
      show (if 60 ≤ m.score then some m.choice else none) = none
      rw [if_neg (by rw [h0]; norm_num)]
  have hlen : (search_movie df "" limit).length = min limit df.length := by
    rw [search_movie, List.length_map, extract, List.length_take, List.length_insertionSort,
      allMatches, List.length_map, List.enum_length, dfTitles, List.length_map]
  refine ⟨hfind, hlen, fun e he => ?_⟩
  rw [search_movie, List.mem_map] at he
  obtain ⟨m, hm, hme⟩ := he
  rw [extract] at hm
  have hm' : m ∈ allMatches "" (dfTitles df) :=
    (List.mem_insertionSort matchGE).mp (List.mem_of_mem_take hm)
  rw [← hme]
  show pyround 1 m.score = 0
  rw [hscore m hm']
  exact pyround_zero 1

/-- C4 (amended) witness on the two-row catalog. -/
theorem C4_amended_empty_query_witness :
    find_movie dfPair "" 60 = none ∧
    (search_movie dfPair "" 5).length = min 5 dfPair.length ∧
    ∀ e ∈ search_movie dfPair "" 5, e.match_score = 0 :=
  C4_amended_empty_query dfPair 5 (by decide)

/-- C3: the anchor row (the least-index row bearing the resolved title) never
appears in its own recommendation list: every selected row has a catalog
index different from the anchor index, even when duplicate titles exist. -/
theorem C3_self_exclusion (df : List Row) (cos : List ℚ → List ℚ → ℚ) (emb : List (List ℚ))
    (l1p : ℕ → ℚ) (name : String) (tn mv : ℕ) (mr : ℚ) (t : String) (recs : List RecEntry)
    (h : get_recommendations df cos emb l1p name tn mv mr = RecResult.ok t recs) :
    recs = (topScored df (cosSims cos emb (anchorIdx df t)) l1p tn mv mr
      (anchorIdx df t)).map formatEntry ∧
    ∀ s ∈ topScored df (cosSims cos emb (anchorIdx df t)) l1p tn mv mr (anchorIdx df t),
      s.idx ≠ anchorIdx df t := by
  obtain ⟨-, hrecs⟩ := get_rec_ok_inv h
  refine ⟨hrecs, fun s hs => ?_⟩
  obtain ⟨-, -, -, hne, -, -⟩ := mem_scoredCands (mem_topScored hs)
  exact hne

/-- C3 witness on a catalog with a duplicated title ("ab" at indices 0 and 1):
the call succeeds and no selected row has the anchor index. -/
theorem C3_self_exclusion_witness :
    recsDup = (topScored dfDup (cosSims dotp embDup (anchorIdx dfDup "ab")) l1pLin 10 0 0
      (anchorIdx dfDup "ab")).map formatEntry ∧
    ∀ s ∈ topScored dfDup (cosSims dotp embDup (anchorIdx dfDup "ab")) l1pLin 10 0 0
      (anchorIdx dfDup "ab"), s.idx ≠ anchorIdx dfDup "ab" :=
  C3_self_exclusion dfDup dotp embDup l1pLin "ab" 10 0 0 "ab" recsDup (by decide)

/-- C7 witness: query "abc" against title "abcdefg" scores exactly 60 and is
accepted; query "ab" scores 400/9 < 60 and is rejected. -/
theorem C7_threshold_boundary_witness :
    find_movie dfSixty "abc" 60 = some "abcdefg" ∧
    find_movie dfSixty "ab" 60 = none :=
  ⟨(C7_threshold_boundary dfSixty "abc" ⟨"abcdefg", 60, 0⟩ (by decide)).1 rfl,
   ((C7_threshold_boundary dfSixty "ab" ⟨"abcdefg", qdiv 400 9, 0⟩ (by decide)).2
     (by decide)).1⟩

/-- C8 witness: "zz" resolves nowhere in `dfDup`. -/
theorem C8_notfound_suggestions_witness :
    get_recommendations dfDup dotp embDup l1pLin "zz" 10 0 0 =
      RecResult.notFound ("Movie " ++ "zz" ++ " not found") (search_movie dfDup "zz" 3) ∧
    (search_movie dfDup "zz" 3).length ≤ 3 ∧
    get_movie_details dfDup "zz" = none :=
  C8_notfound_suggestions dfDup dotp embDup l1pLin "zz" 10 0 0 (by decide)

/-- C10: the engine anchors on the least catalog index bearing the resolved
title and excludes exactly that one row from the candidate pool: any row
meeting the vote and rating thresholds whose index differs from the anchor —
in particular another row with the same title — is in the pool. -/
theorem C10_duplicate_titles_anchor (df : List Row) (cos : List ℚ → List ℚ → ℚ)
    (emb : List (List ℚ)) (l1p : ℕ → ℚ) (name : String) (tn mv : ℕ) (mr : ℚ)
    (t : String) (recs : List RecEntry)
    (h : get_recommendations df cos emb l1p name tn mv mr = RecResult.ok t recs) :
    anchorIdx df t < df.length ∧
    (∀ r, df[anchorIdx df t]? = some r → r.title = t) ∧
    (∀ j r, j < anchorIdx df t → df[j]? = some r → r.title ≠ t) ∧
    ∀ i r, df[i]? = some r →
      ((i, r) ∈ candidates df mv mr (anchorIdx df t) ↔
        mv ≤ r.vote_count ∧ mr ≤ r.vote_average ∧ i ≠ anchorIdx df t) := by
  obtain ⟨hfind, -⟩ := get_rec_ok_inv h
  have ht : t ∈ dfTitles df := find_movie_some_mem hfind
  rw [dfTitles, List.mem_map] at ht
  obtain ⟨r0, hr0, hr0t⟩ := ht
  have hex : ∃ x ∈ df, (fun r => r.title == t) x = true := ⟨r0, hr0, beq_iff_eq.mpr hr0t⟩
  have hlt : anchorIdx df t < df.length := List.findIdx_lt_length_of_exists hex
  refine ⟨hlt, ?_, ?_, ?_⟩
  · intro r hr
    rw [anchorIdx] at hr
    obtain ⟨hl, hEq⟩ := List.getElem?_eq_some.mp hr
    have hp := @List.findIdx_getElem _ (fun r => r.title == t) df hl
    rw [hEq] at hp
    exact beq_iff_eq.mp hp
  · intro j r hj hr
    rw [anchorIdx] at hj
    obtain ⟨hl, hEq⟩ := List.getElem?_eq_some.mp hr
    have hp := List.not_of_lt_findIdx hj
    rw [hEq] at hp
    intro hcontra
    rw [hcontra] at hp
    simp at hp
  · intro i r hir
    rw [candidates, List.mem_filter]
    constructor
    · rintro ⟨-, hcond⟩
      exact of_decide_eq_true hcond
    · intro hcond
      exact ⟨List.mk_mem_enum_iff_getElem?.mpr hir, decide_eq_true hcond⟩

/-- C10 witness on the duplicated-title catalog: the anchor is index 0, the
duplicate row at index 1 stays in the candidate pool (and indeed appears in
`recsDup`). -/
theorem C10_duplicate_titles_anchor_witness :
    anchorIdx dfDup "ab" < dfDup.length ∧
    (∀ r, dfDup[anchorIdx dfDup "ab"]? = some r → r.title = "ab") ∧
    (∀ j r, j < anchorIdx dfDup "ab" → dfDup[j]? = some r → r.title ≠ "ab") ∧
    ∀ i r, dfDup[i]? = some r →
      ((i, r) ∈ candidates dfDup 0 0 (anchorIdx dfDup "ab") ↔
        0 ≤ r.vote_count ∧ 0 ≤ r.vote_average ∧ i ≠ anchorIdx dfDup "ab") :=
  C10_duplicate_titles_anchor dfDup dotp embDup l1pLin "ab" 10 0 0 "ab" recsDup (by decide)

/-- C2 counterexample: with `min_rating = 6.04` and a row whose exact rating
is 6.04, the recommend call succeeds and returns that row, but the rating in
the output — rounded to one decimal — is 6.0, strictly below `min_rating`. -/
theorem C2_counterexample_rounded_rating :
    isOkR (get_recommendations dfPair dotp embPair l1pLin "ab" 10 0 (qdiv 604 100)) = true ∧
    (recList (get_recommendations dfPair dotp embPair l1pLin "ab" 10 0
      (qdiv 604 100))).any (fun e => decide (e.rating < qdiv 604 100)) = true := by
  decide

/-- C2 (amended): every returned entry comes from a catalog row whose vote
count is at least `min_votes` and whose exact (unrounded) rating is at least
`min_rating`; the rating in the output is that rating rounded to one decimal,
which can fall below `min_rating` (by less than 0.05). -/
theorem C2_amended_filter_bounds (df : List Row) (cos : List ℚ → List ℚ → ℚ)
    (emb : List (List ℚ)) (l1p : ℕ → ℚ) (name : String) (tn mv : ℕ) (mr : ℚ)
    (t : String) (recs : List RecEntry)
    (h : get_recommendations df cos emb l1p name tn mv mr = RecResult.ok t recs) :
    ∀ e ∈ recs,
      ∃ s ∈ topScored df (cosSims cos emb (anchorIdx df t)) l1p tn mv mr (anchorIdx df t),
        e = formatEntry s ∧ mv ≤ s.row.vote_count ∧ mr ≤ s.row.vote_average ∧
        e.rating = pyround 1 s.row.vote_average ∧ e.votes = s.row.vote_count := by
  obtain ⟨-, hrecs⟩ := get_rec_ok_inv h
  subst hrecs
  intro e he
  rw [List.mem_map] at he
  obtain ⟨s, hs, hes⟩ := he
  obtain ⟨-, h1, h2, -, -, -⟩ := mem_scoredCands (mem_topScored hs)
  subst hes
  exact ⟨s, hs, rfl, h1, h2, rfl, rfl⟩

/-- C2 (amended) witness at `min_rating = 6.04`, instantiated at the single
returned entry. -/
theorem C2_amended_filter_bounds_witness :
    ∃ s ∈ topScored dfPair (cosSims dotp embPair (anchorIdx dfPair "ab")) l1pLin 10 0
      (qdiv 604 100) (anchorIdx dfPair "ab"),
      (⟨"cd", 6, 100, 0, qdiv 289 1000⟩ : RecEntry) = formatEntry s ∧
      0 ≤ s.row.vote_count ∧ qdiv 604 100 ≤ s.row.vote_average ∧
      (⟨"cd", 6, 100, 0, qdiv 289 1000⟩ : RecEntry).rating = pyround 1 s.row.vote_average ∧
      (⟨"cd", 6, 100, 0, qdiv 289 1000⟩ : RecEntry).votes = s.row.vote_count :=
  C2_amended_filter_bounds dfPair dotp embPair l1pLin "ab" 10 0 (qdiv 604 100) "ab"
    recsPair (by decide) ⟨"cd", 6, 100, 0, qdiv 289 1000⟩ (by decide)

/-- C1: on the success path, when the log1p of the maximum vote count is
nonzero and the similarity kernel is cosine similarity, the returned list is
the formatted top-`top_n` prefix of the filtered candidates sorted by
descending final score, and every candidate's final score is exactly
`0.6 * similarity + 0.4 * (0.7 * (rating / 10) + 0.3 * (log1p votes / log1p maxVotes))`. -/
theorem C1_blended_score_formula (df : List Row) (cos : List ℚ → List ℚ → ℚ)
    (emb : List (List ℚ)) (l1p : ℕ → ℚ) (name : String) (tn mv : ℕ) (mr : ℚ)
    (t : String) (recs : List RecEntry)
    (h : get_recommendations df cos emb l1p name tn mv mr = RecResult.ok t recs)
    (hden : l1p (vmaxOf df) ≠ 0)
    (hcos : ∀ i ∈ List.range df.length,
      IsCosSim (emb.getD (anchorIdx df t) []) (emb.getD i [])
        (cosSims cos emb (anchorIdx df t) i)) :
    ∃ sel rest : List Scored,
      recs = sel.map formatEntry ∧
      (sel ++ rest).Perm
        (scoredCands df (cosSims cos emb (anchorIdx df t)) l1p mv mr (anchorIdx df t)) ∧
      sel.length = min tn (sel ++ rest).length ∧
      List.Pairwise (fun x y => y.final ≤ x.final) (sel ++ rest) ∧
      ∀ s ∈ sel ++ rest,
        IsCosSim (emb.getD (anchorIdx df t) []) (emb.getD s.idx []) s.similarity ∧
        s.final = 6/10 * s.similarity +
          4/10 * (7/10 * (s.row.vote_average / 10) +
            3/10 * (l1p s.row.vote_count / l1p (vmaxOf df))) := by
  obtain ⟨-, hrecs⟩ := get_rec_ok_inv h
  obtain ⟨rest, hperm, hlen, hpair⟩ :=
    topScored_spec df (cosSims cos emb (anchorIdx df t)) l1p tn mv mr (anchorIdx df t)
  refine ⟨topScored df (cosSims cos emb (anchorIdx df t)) l1p tn mv mr (anchorIdx df t),
    rest, hrecs, hperm, hlen, hpair, ?_⟩
  intro s hs
  have hsc : s ∈ scoredCands df (cosSims cos emb (anchorIdx df t)) l1p mv mr
      (anchorIdx df t) := hperm.mem_iff.mp hs
  obtain ⟨hget, -, -, -, hsim, q, hq, hfinal⟩ := mem_scoredCands hsc
  have hidx : s.idx < df.length := (List.getElem?_eq_some.mp hget).1
  constructor
  · have hc := hcos s.idx (List.mem_range.mpr hidx)
    rwa [← hsim] at hc
  · rw [qualityScore, npDiv, if_neg hden] at hq
    have hq' : qadd (qmul (qdiv s.row.vote_average 10) (qdiv 7 10))
        (qmul (qdiv (l1p s.row.vote_count) (l1p (vmaxOf df))) (qdiv 3 10)) = q :=
      Option.some.inj (by simpa using hq)
    rw [hfinal, ← hq', hsim]
    simp only [qadd_eq, qmul_eq, qdiv_eq_div]
    ring

/-- C1 witness on the duplicated-title catalog with unit-norm embeddings. -/
theorem C1_blended_score_formula_witness :
    ∃ sel rest : List Scored,
      recsDup = sel.map formatEntry ∧
      (sel ++ rest).Perm (scoredCands dfDup (cosSims dotp embDup (anchorIdx dfDup "ab"))
        l1pLin 0 0 (anchorIdx dfDup "ab")) ∧
      sel.length = min 10 (sel ++ rest).length ∧
      List.Pairwise (fun x y => y.final ≤ x.final) (sel ++ rest) ∧
      ∀ s ∈ sel ++ rest,
        IsCosSim (embDup.getD (anchorIdx dfDup "ab") []) (embDup.getD s.idx []) s.similarity ∧
        s.final = 6/10 * s.similarity +
          4/10 * (7/10 * (s.row.vote_average / 10) +
            3/10 * (l1pLin s.row.vote_count / l1pLin (vmaxOf dfDup))) :=
  C1_blended_score_formula dfDup dotp embDup l1pLin "ab" 10 0 0 "ab" recsDup
    (by decide) (by decide) (by decide)

end MovieRec
